import Mathlib

/-!
Verification development for the ModEA evolution-strategy engine
(`code/Algorithms.py`).  The generational loop `baseAlgorithm`
(lines 301-492) and the configuration logic of `customizedES`
(lines 194-292) are shallowly embedded below.

Modelling conventions:
* real numbers (fitness values, step sizes, design-vector coordinates)
  are modelled as `Int` — every operation the embedded code performs on
  them (`+`, `-`, `*`, `<`, `≤`) is order/ring material, so the
  rationalisation is faithful;
* a design vector (`dna`) is a `List Int` with pointwise arithmetic;
* the algorithm-specific closures passed to `baseAlgorithm` through the
  `functions` dictionary (`recombine`, `mutate`, `select`,
  `mutateParameters`) and the members of the missing `Parameters` class
  that the loop calls (`ipopTest`, `local_restart`) are fields of an
  `Env` record, universally quantified in every theorem: any behaviour
  (including any realisation of the randomness) is an instance;
* `mutate` receives the current value of `used_budget` as an extra
  argument: this indexes the random draw the Python code takes from its
  stateful sampler, so any sequence of draws is representable;
* Python exceptions (`NameError` on the stale loop variable `i`,
  `IndexError` on `population[0]`) are modelled with `Except String`;
* the Python `while` loop is driven by `fuel`; all results are stated
  for an arbitrary fuel, so they cover every terminating run.
-/

namespace ModEA

/-- A design vector: the `dna` of one individual (numpy array in the source). -/
abbrev Dna := List Int

/-- Pointwise vector addition (numpy `+` on dna vectors). -/
def vecAdd (a b : Dna) : Dna := List.zipWith (· + ·) a b

/-- Pointwise vector subtraction (numpy `-` on dna vectors). -/
def vecSub (a b : Dna) : Dna := List.zipWith (· - ·) a b

/-- Scalar multiplication of a vector (numpy `*` by a scalar). -/
def vecSmul (c : Int) (v : Dna) : Dna := v.map (fun x => c * x)

/-- Modelled from the spec: the `Individual` class (its module is not in the
provided sources); per §3 of the specification an individual is a candidate
solution holding a design vector `dna` and a scalar `fitness` (lower is
better). -/
structure Individual where
  dna : Dna
  fitness : Int
deriving DecidableEq, Repr, Inhabited

/-- Restart mode of the run: `parameters.ipop` is falsy, `IPOP` or `BIPOP`. -/
inductive RestartMode where
  | off
  | IPOP
  | BIPOP
deriving DecidableEq, Repr, Inhabited

/-- The `pop_change` argument handed to `parameters.local_restart`
(`'small'`, `'large'` or `None` in the source). -/
inductive PopChange where
  | small
  | large
deriving DecidableEq, Repr, Inhabited

/-- Modelled from the spec: the mutable `Parameters` object (its module is
not in the provided sources).  Only the fields that `baseAlgorithm` and
`customizedES` read are modelled, per §3 of the specification. -/
structure Params where
  n : Nat
  mu : Nat
  lambda_ : Nat
  sigma_mean : Int
  wcm : Dna
  wcm_old : Dna
  tpa_factor : Int
  tpa_result : Option Int
  seq_cutoff : Nat
  sequential : Bool
  tpa : Bool
  ipop : RestartMode
  last_pop_large : Bool
  max_iter : Nat
deriving DecidableEq, Repr

/-- A default `Params` value (used only to inhabit the type). -/
def defaultParams : Params :=
  { n := 1, mu := 1, lambda_ := 1, sigma_mean := 1, wcm := [0], wcm_old := [0],
    tpa_factor := 1, tpa_result := none, seq_cutoff := 1, sequential := false,
    tpa := false, ipop := RestartMode.off, last_pop_large := false, max_iter := 100 }

instance : Inhabited Params := ⟨defaultParams⟩

/-- The environment of one `baseAlgorithm` run: the fitness function, the
four closures of the `functions` dictionary, the `Parameters` methods called
by the loop (from the missing `Parameters` module, hence abstract), the
random search point drawn by `randn` at a restart (indexed by the current
`used_budget` so that any realisation is representable), the evaluation
budget and the effective `parallel` flag (after the `allow_parallel`
fallback at lines 351-357). -/
structure Env where
  fitnessFunction : Dna → Int
  recombine : Params → List Individual → Params × List Individual
  mutate : Nat → Params → Dna → Dna
  select : Params → List Individual → List Individual → Nat → Params × List Individual
  mutateParameters : Nat → Params → Params
  ipopTest : Params → Nat → List Int → Bool
  localRestart : Option PopChange → Params → Params
  newSearchPoint : Nat → Dna
  budget : Nat
  parallel : Bool

/-- The state of the main evaluation loop of `baseAlgorithm`: the local
variables of lines 332-358 plus the loop variable `i` of the evaluation
`for` loop (`last_i`, `none` while still undefined — Python raises
`NameError` at line 416 if it is used before the first evaluation), the
sorted fitness list of line 417, a counter of the "Bad population size"
diagnostics printed at line 435, and an instrumentation counter `evals` of
the individual fitness evaluations actually performed. -/
structure LoopState where
  population : List Individual
  new_population : List Individual
  params : Params
  used_budget : Nat
  used_budget_at_last_restart : Nat
  restart_budget : Nat
  improvement_found : Bool
  last_i : Option Nat
  fitnesses : List Int
  sigma_over_time : List Int
  best_fitness_over_time : List Int
  generation_size : List Nat
  best_individual : Individual
  warnings : Nat
  evals : Nat
deriving DecidableEq, Repr

/-- A default loop state (used only to inhabit the type). -/
def defaultLoopState : LoopState :=
  { population := [], new_population := [], params := defaultParams,
    used_budget := 0, used_budget_at_last_restart := 0, restart_budget := 0,
    improvement_found := false, last_i := none, fitnesses := [],
    sigma_over_time := [], best_fitness_over_time := [], generation_size := [],
    best_individual := default, warnings := 0, evals := 0 }

instance : Inhabited LoopState := ⟨defaultLoopState⟩

/-- Head of an individual list with a default (used to model `population[0]`
after the emptiness of the list has been excluded). -/
def headInd (l : List Individual) : Individual := l.headD default

/-- Fitness of the first individual of a list (`population[0].fitness`). -/
def headFit (l : List Individual) : Int := (headInd l).fitness

/-- The `mutateAndEvaluate` helper (lines 296-299): mutate the individual in
place, then evaluate its new dna.  `ub` is the current `used_budget`,
indexing the random draw. -/
def npMut (E : Env) (p : Params) (ub : Nat) (ind : Individual) : Individual :=
  { dna := E.mutate ub p ind.dna, fitness := E.fitnessFunction (E.mutate ub p ind.dna) }

/-- The sequential-evaluation improvement update (lines 389-390 / 408-409):
`if individual.fitness < best_individual.fitness: improvement_found = True`. -/
def seqImpr (bestFit : Int) (ind : Individual) (impr : Bool) : Bool :=
  if ind.fitness < bestFit then true else impr

/-- Cons an individual onto the evaluated prefix of an evaluation result. -/
def consFst (x : Individual) (r : List Individual × Nat × Bool) :
    List Individual × Nat × Bool :=
  (x :: r.1, r.2.1, r.2.2)

/-- The non-parallel evaluation `for` loop of lines 400-414: walk the new
population in order; for each individual mutate, evaluate and charge one
budget unit; under sequential evaluation stop once `i >= seq_cutoff` and an
improvement was found (resetting the flag), or as soon as
`used_budget == budget`.  Returns the processed prefix, the new
`used_budget` and the improvement flag. -/
def npEval (E : Env) (sequential : Bool) (p : Params) (bestFit : Int) :
    List Individual → Nat → Nat → Bool → List Individual × Nat × Bool
  | [], _, ub, impr => ([], ub, impr)
  | ind :: rest, i, ub, impr =>
    if sequential = true then
      if p.seq_cutoff ≤ i ∧ seqImpr bestFit (npMut E p ub ind) impr = true then
        ([npMut E p ub ind], ub + 1, false)
      else if ub + 1 = E.budget then
        ([npMut E p ub ind], ub + 1, seqImpr bestFit (npMut E p ub ind) impr)
      else
        consFst (npMut E p ub ind)
          (npEval E sequential p bestFit rest (i + 1) (ub + 1)
            (seqImpr bestFit (npMut E p ub ind) impr))
    else
      consFst (npMut E p ub ind) (npEval E sequential p bestFit rest (i + 1) (ub + 1) impr)

/-- Parallel evaluation (lines 369-384): every member of the new population
is mutated and evaluated (by `p.map(mutEval, ...)` or by the batched MPI
call); `idx` numbers the random draws. -/
def mutEvalAll (E : Env) (p : Params) (ub0 : Nat) : Nat → List Individual → List Individual
  | _, [] => []
  | idx, ind :: rest => npMut E p (ub0 + idx) ind :: mutEvalAll E p ub0 (idx + 1) rest

/-- Combine the recursive result of `parSeqBook` with the current index. -/
def stepPar (i : Nat) (r : Nat × Bool × Option Nat) : Nat × Bool × Option Nat :=
  (r.1, r.2.1, some (r.2.2.getD i))

/-- The sequential bookkeeping replay of lines 386-395, run after a parallel
batch evaluation: charge one budget unit per offspring in order, with the
same two early exits as the non-parallel loop.  Also returns the last value
taken by the loop variable `i` (`none` when the list was empty and `i` kept
its previous, stale value). -/
def parSeqBook (budget seq_cutoff : Nat) (bestFit : Int) :
    List Individual → Nat → Nat → Bool → Nat × Bool × Option Nat
  | [], _, ub, impr => (ub, impr, none)
  | ind :: rest, i, ub, impr =>
    if seq_cutoff ≤ i ∧ seqImpr bestFit ind impr = true then
      (ub + 1, false, some i)
    else if ub + 1 = budget then
      (ub + 1, seqImpr bestFit ind impr, some i)
    else
      stepPar i (parSeqBook budget seq_cutoff bestFit rest (i + 1) (ub + 1)
        (seqImpr bestFit ind impr))

/-- The TPA offspring trim at lines 366-367: `new_population =
new_population[:-2]` when two-point adaptation is enabled. -/
def trimTPA (tpa : Bool) (st : LoopState) : LoopState :=
  if tpa = true then
    { st with new_population := st.new_population.take (st.new_population.length - 2) }
  else st

/-- The batch of mutated-and-evaluated offspring of the parallel branch
(lines 374-384): every member of the new population is processed. -/
def parBatch (E : Env) (st : LoopState) : List Individual :=
  mutEvalAll E st.params st.used_budget 0 st.new_population

/-- The sequential bookkeeping replay over the evaluated batch
(lines 386-395). -/
def parBook (E : Env) (st : LoopState) : Nat × Bool × Option Nat :=
  parSeqBook E.budget st.params.seq_cutoff st.best_individual.fitness (parBatch E st) 0
    st.used_budget st.improvement_found

/-- The parallel branch of the evaluation step (lines 369-398): evaluate the
whole batch; under sequential evaluation replay the budget bookkeeping over
it, otherwise charge a flat `parameters.lambda_` and set `i = lambda_`. -/
def parEval (E : Env) (sequential : Bool) (st : LoopState) : LoopState :=
  if sequential = true then
    { st with
      new_population := parBatch E st,
      used_budget := (parBook E st).1,
      improvement_found := (parBook E st).2.1,
      last_i := match (parBook E st).2.2 with
        | none => st.last_i
        | some j => some j,
      evals := st.evals + (parBatch E st).length }
  else
    { st with
      new_population := parBatch E st,
      used_budget := st.used_budget + st.params.lambda_,
      last_i := some st.params.lambda_,
      evals := st.evals + (parBatch E st).length }

/-- The result of the non-parallel evaluation loop on the current state. -/
def npRes (E : Env) (sequential : Bool) (st : LoopState) : List Individual × Nat × Bool :=
  npEval E sequential st.params st.best_individual.fitness st.new_population 0
    st.used_budget st.improvement_found

/-- The non-parallel branch of the evaluation step (lines 399-414): the
processed prefix of the offspring list is mutated and evaluated in place,
the unprocessed suffix is untouched. -/
def npApply (E : Env) (sequential : Bool) (st : LoopState) : LoopState :=
  { st with
    new_population :=
      (npRes E sequential st).1 ++ st.new_population.drop (npRes E sequential st).1.length,
    used_budget := (npRes E sequential st).2.1,
    improvement_found := (npRes E sequential st).2.2,
    last_i :=
      if (npRes E sequential st).1.length = 0 then st.last_i
      else some ((npRes E sequential st).1.length - 1),
    evals := st.evals + (npRes E sequential st).1.length }

/-- The EVALUATE step of one generation (lines 366-414). -/
def evalPhase (E : Env) (sequential : Bool) (st : LoopState) : LoopState :=
  if E.parallel = true then parEval E sequential st else npApply E sequential st

/-- Line 416: `new_population = new_population[:i+1]`.  If `i` was never
assigned (first generation with an empty offspring list) Python raises a
`NameError`. -/
def truncatePhase (st : LoopState) : Except String LoopState :=
  match st.last_i with
  | none => Except.error "NameError: name i is not defined"
  | some i => Except.ok { st with new_population := st.new_population.take (i + 1) }

/-- Insert an integer into a sorted list (ascending). -/
def insertInt (x : Int) : List Int → List Int
  | [] => [x]
  | y :: ys => if x ≤ y then x :: y :: ys else y :: insertInt x ys

/-- `sorted(...)` on a list of fitness values (line 417). -/
def sortInts (l : List Int) : List Int := l.foldr insertInt []

/-- Modelled from the spec: `copy(population[0])` at line 426 calls the copy
protocol of the `Individual` class, whose module is not in the provided
sources; per §4.6 of the specification the best-so-far snapshot is
"deep-copied, never aliased", so the copy is modelled as a full value
snapshot of the individual. -/
def copyIndividual (ind : Individual) : Individual :=
  { dna := ind.dna, fitness := ind.fitness }

/-- The select call of the current generation (line 418). -/
def selOut (E : Env) (st : LoopState) : Params × List Individual :=
  E.select st.params st.population st.new_population st.used_budget

/-- Lines 417-426: compute the sorted fitness list, run selection, extend
the traces to the current `used_budget` by repeating the newest values, and
update the best-so-far snapshot on strict improvement.  `population[0]` on
an empty selected population raises `IndexError`. -/
def selectTrackPhase (E : Env) (st : LoopState) : Except String LoopState :=
  if (selOut E st).2 = [] then
    Except.error "IndexError: list index out of range"
  else
    Except.ok { st with
      fitnesses := sortInts (st.new_population.map (fun ind => ind.fitness)),
      params := (selOut E st).1,
      population := (selOut E st).2,
      generation_size :=
        st.generation_size ++ [st.used_budget - st.best_fitness_over_time.length],
      sigma_over_time := st.sigma_over_time ++
        List.replicate (st.used_budget - st.sigma_over_time.length) (selOut E st).1.sigma_mean,
      best_fitness_over_time := st.best_fitness_over_time ++
        List.replicate (st.used_budget - st.best_fitness_over_time.length)
          (headFit (selOut E st).2),
      best_individual :=
        if headFit (selOut E st).2 < st.best_individual.fitness then
          copyIndividual (headInd (selOut E st).2)
        else st.best_individual }

/-- Lines 432-436: recombine when the selected population has exactly `mu`
members, otherwise print the "Bad population size" diagnostic (counted in
`warnings`) and keep the previous offspring list. -/
def recombinePhase (E : Env) (st : LoopState) : LoopState :=
  if st.population.length = st.params.mu then
    { st with
      params := (E.recombine st.params st.population).1,
      new_population := (E.recombine st.params st.population).2 }
  else
    { st with warnings := st.warnings + 1 }

/-- Lines 440-455: the two-point step-size adaptation probe step.  Two probe
points `wcm ± (wcm - wcm_old) * tpa_factor` are evaluated, `used_budget`
grows by two (pulled back to `budget` when it overshoots and sequential
evaluation is active) and `tpa_result` records which probe was better. -/
def tpaPhase (E : Env) (sequential tpa : Bool) (st : LoopState) : LoopState :=
  if tpa = true then
    { st with
      used_budget :=
        if E.budget < st.used_budget + 2 ∧ sequential = true then E.budget
        else st.used_budget + 2,
      evals := st.evals + 2,
      params := { st.params with
        tpa_result := some
          (if E.fitnessFunction (vecAdd st.params.wcm
                (vecSmul st.params.tpa_factor (vecSub st.params.wcm st.params.wcm_old))) <
              E.fitnessFunction (vecSub st.params.wcm
                (vecSmul st.params.tpa_factor (vecSub st.params.wcm st.params.wcm_old)))
            then 1 else -1) } }
  else st

/-- Line 457: `mutateParameters(used_budget)`. -/
def adaptPhase (E : Env) (st : LoopState) : LoopState :=
  { st with params := E.mutateParameters st.used_budget st.params }

/-- `used_budget - used_budget_at_last_restart` of line 462 (Python int
arithmetic, hence over `Int`). -/
def usedSince (st : LoopState) : Int :=
  (st.used_budget : Int) - (st.used_budget_at_last_restart : Int)

/-- Lines 463-465: the restart trigger — budget since the last restart
exceeds `restart_budget`, or the stagnation test of the `Parameters` class
fires. -/
def ipopRestart (E : Env) (st : LoopState) : Bool :=
  if (st.restart_budget : Int) < usedSince st then true
  else E.ipopTest st.params st.used_budget st.fitnesses

/-- Lines 468, 482-486: record the restart point, set the new restart
budget, call `parameters.local_restart(pop_change)` and place every
offspring seed at a fresh random search point. -/
def applyRestart (E : Env) (st : LoopState) (rb : Nat) (pc : Option PopChange) : LoopState :=
  { st with
    used_budget_at_last_restart := st.used_budget,
    restart_budget := rb,
    params := E.localRestart pc st.params,
    new_population := st.new_population.map
      (fun ind => { ind with dna := E.newSearchPoint st.used_budget }) }

/-- The (B)IPOP block of lines 461-486. -/
def ipopPhase (E : Env) (st : LoopState) : LoopState :=
  if st.params.ipop = RestartMode.off then st
  else if ipopRestart E st = true then
    if st.params.ipop = RestartMode.BIPOP ∧ st.params.last_pop_large = true ∧
        Int.fdiv (usedSince st) 2 < (E.budget : Int) - (st.used_budget : Int) then
      applyRestart E st (Int.toNat (Int.fdiv (usedSince st) 2)) (some PopChange.small)
    else if st.params.ipop = RestartMode.IPOP ∨ st.params.ipop = RestartMode.BIPOP then
      applyRestart E st (st.params.max_iter * st.params.lambda_) (some PopChange.large)
    else
      applyRestart E st st.restart_budget none
  else st

/-- Lines 432-486: the tail of a generation that is only run when the
budget is not yet exhausted after tracking. -/
def contPhase (E : Env) (sequential tpa : Bool) (st : LoopState) : LoopState :=
  ipopPhase E (adaptPhase E (tpaPhase E sequential tpa (recombinePhase E st)))

/-- One iteration of the main evaluation loop (lines 364-486).  The `Bool`
of the result is `true` when the `break` at lines 429-430 fired. -/
def genStep (E : Env) (sequential tpa : Bool) (st : LoopState) :
    Except String (LoopState × Bool) :=
  Except.bind (truncatePhase (evalPhase E sequential (trimTPA tpa st))) (fun st3 =>
    Except.bind (selectTrackPhase E st3) (fun st4 =>
      if E.budget ≤ st4.used_budget then Except.ok (st4, true)
      else Except.ok (contPhase E sequential tpa st4, false)))

/-- The `while used_budget < budget` loop (line 364), driven by fuel. -/
def runLoop (E : Env) (sequential tpa : Bool) : Nat → LoopState → Except String LoopState
  | 0, st => Except.ok st
  | fuel + 1, st =>
    if st.used_budget < E.budget then
      Except.bind (genStep E sequential tpa st) (fun pr =>
        if pr.2 = true then Except.ok pr.1 else runLoop E sequential tpa fuel pr.1)
    else Except.ok st

/-- The initialisation of lines 332-361: zero budget counters,
`restart_budget = parameters.max_iter`, `best_individual = population[0]`,
the `sequential`/`tpa` locals snapshot, and the single recombination of
line 360 that creates the first offspring list. -/
def initialState (E : Env) (params0 : Params) (population : List Individual)
    (first : Individual) : LoopState :=
  { population := population,
    new_population := (E.recombine params0 population).2,
    params := (E.recombine params0 population).1,
    used_budget := 0,
    used_budget_at_last_restart := 0,
    restart_budget := params0.max_iter,
    improvement_found := false,
    last_i := none,
    fitnesses := [],
    sigma_over_time := [],
    best_fitness_over_time := [],
    generation_size := [],
    best_individual := first,
    warnings := 0,
    evals := 0 }

/-- The skeleton function `baseAlgorithm` (lines 301-492).
`best_individual = population[0]` raises `IndexError` on an empty initial
population; otherwise the main loop runs until the budget is exhausted
(or the fuel runs out, which only ever stops the loop early). -/
def baseAlgorithm (E : Env) (params0 : Params) (population : List Individual)
    (fuel : Nat) : Except String LoopState :=
  match population with
  | [] => Except.error "IndexError: list index out of range"
  | first :: _ =>
    runLoop E params0.sequential params0.tpa fuel (initialState E params0 population first)

/-! ### Selector variants (modelled from the spec, their module is not in `src/`) -/

/-- Insert an individual into a fitness-sorted list (ascending). -/
def insertIndSorted (x : Individual) : List Individual → List Individual
  | [] => [x]
  | y :: ys => if x.fitness ≤ y.fitness then x :: y :: ys else y :: insertIndSorted x ys

/-- Sort a population ascending by fitness. -/
def sortByFitness (l : List Individual) : List Individual := l.foldr insertIndSorted []

/-- Modelled from the spec: `Sel.best` (§4.3, the `Selection` module is not
in the provided sources) — elitist: sort parents ∪ offspring ascending by
fitness and keep the top `mu`; non-elitist: sort the offspring only and keep
the top `mu`. -/
def selBest (elitist : Bool) (mu : Nat) (pop newpop : List Individual) : List Individual :=
  if elitist = true then (sortByFitness (pop ++ newpop)).take mu
  else (sortByFitness newpop).take mu

/-- Modelled from the spec: a (1+1)-style elitist selector (§4.3) — keep the
better of the incumbent parent head and the offspring head.  Used as a
concrete elitist selector instance. -/
def elitistSelect (p : Params) (q np : List Individual) (_t : Nat) : Params × List Individual :=
  (p, if headFit np ≤ headFit q then [headInd np] else [headInd q])

/-- A boolean check that a list of fitness values is monotonically
non-increasing over its full length. -/
def nonIncreasing : List Int → Bool
  | [] => true
  | [_] => true
  | a :: b :: t => (decide (b ≤ a)) && nonIncreasing (b :: t)

/-! ### The configuration logic of `customizedES` (lines 242-271) -/

/-- Python `%` (floor modulus; over `Int` because Python ints are signed). -/
def pyMod (a b : Int) : Int := a % b

/-- Python `//` (floor division). -/
def pyFloorDiv (a b : Int) : Int := Int.fdiv a b

/-- Lines 245-249: `lambda_` after the explicit force-to-even fix under
pairwise selection (odd values are decremented; a resulting zero is bumped
to two). -/
def customizedES_l1 (lambda_ : Int) : Int :=
  if pyMod lambda_ 2 = 1 then
    (if lambda_ - 1 = 0 then lambda_ - 1 + 2 else lambda_ - 1)
  else lambda_

/-- Lines 252-254: under TPA a `lambda_` of two is bumped to four. -/
def customizedES_l2 (lambda_ : Int) (two_point : Bool) : Int :=
  if two_point = true ∧ customizedES_l1 lambda_ = 2 then customizedES_l1 lambda_ + 2
  else customizedES_l1 lambda_

/-- Lines 255-257: the effective lambda — TPA consumes two evaluations. -/
def customizedES_eff (lambda_ : Int) (two_point : Bool) : Int :=
  if two_point = true then customizedES_l2 lambda_ two_point - 2
  else customizedES_l2 lambda_ two_point

/-- Lines 242-262 of `customizedES`: under pairwise selection, force
`lambda_` even (an odd request is decremented, a resulting zero is bumped to
two), account for the two TPA probes in the effective lambda (bumping
`lambda_ = 2` to four first), and clamp `mu` to half the effective lambda.
Without pairwise selection the requested sizes pass through unchanged.
Returns `(lambda_, mu)`. -/
def customizedES_sizes (mu lambda_ : Int) (pairwise two_point : Bool) : Int × Int :=
  if pairwise = true then
    (customizedES_l2 lambda_ two_point,
      if pyFloorDiv (customizedES_eff lambda_ two_point) 2 < mu then
        pyFloorDiv (customizedES_eff lambda_ two_point) 2
      else mu)
  else (lambda_, mu)

/-- Line 271 of `customizedES`: the initial population, created only after
the size adjustments, with `parameters.mu` individuals. -/
def customizedES_population (n : Nat) (mu : Int) : List Individual :=
  List.replicate mu.toNat { dna := List.replicate n 0, fitness := 0 }

/-! ### Concrete run configurations used to evaluate the model -/

/-- A simple environment: constant fitness 7, recombination into four
offspring seeds, identity mutation, selection keeping the first offspring,
identity parameter adaptation, budget 1, no parallelism. -/
def constEnv : Env :=
  { fitnessFunction := fun _ => 7,
    recombine := fun p _ => (p, List.replicate 4 { dna := [0], fitness := 0 }),
    mutate := fun _ _ d => d,
    select := fun p _ np _ => (p, np.take 1),
    mutateParameters := fun _ p => p,
    ipopTest := fun _ _ _ => false,
    localRestart := fun _ p => p,
    newSearchPoint := fun _ => [0],
    budget := 1,
    parallel := false }

/-- A one-individual starting population with fitness 9. -/
def pop0 : List Individual := [{ dna := [5], fitness := 9 }]

/-- Environment of the C5 counterexample run: budget 4, TPA enabled via the
parameters below. -/
def envC5 : Env := { constEnv with budget := 4 }

/-- Parameters with TPA enabled. -/
def paramsTpa : Params := { defaultParams with tpa := true }

/-- Environment of the C2 counterexample run: one offspring seed per
generation, mutation writes the current `used_budget` into the dna, fitness
reads it back, selection is the non-elitist `Sel.best` of §4.3 with
`mu = 1`; budget 2. -/
def envC2 : Env :=
  { constEnv with
    budget := 2,
    recombine := fun p _ => (p, [{ dna := [0], fitness := 0 }]),
    mutate := fun ub _ _ => [(ub : Int)],
    fitnessFunction := fun d => d.headD 0,
    select := fun p pop np _ => (p, selBest false 1 pop np) }

/-- The elitist variant of the C2 environment, used as a witness run. -/
def envC2w : Env := { envC2 with select := elitistSelect }

/-- The run of the elitist C2 environment. -/
def resC2w : LoopState := ((baseAlgorithm envC2w defaultParams pop0 5).toOption).getD default

/-- Environment of the C3 scenario: sequential evaluation, fitness 1 on the
dna `[4]` and 9 elsewhere (the best-so-far reference fitness is 5, so only
the offspring with dna `[4]` improves). -/
def envC3 : Env :=
  { constEnv with budget := 100, fitnessFunction := fun d => if d = [4] then 1 else 9 }

/-- Parameters of the C3 scenario: `seq_cutoff = mu = 3`. -/
def paramsC3 : Params := { defaultParams with mu := 3, seq_cutoff := 3, sequential := true }

/-- The first five offspring of the C3 scenario (the first improvement over
the reference fitness 5 sits at 0-based index 4). -/
def scenario5 : List Individual :=
  [{ dna := [0], fitness := 0 }, { dna := [1], fitness := 0 }, { dna := [2], fitness := 0 },
   { dna := [3], fitness := 0 }, { dna := [4], fitness := 0 }]

/-- The full lambda = 8 offspring list of the C3 scenario. -/
def scenario8 : List Individual :=
  scenario5 ++ [{ dna := [5], fitness := 0 }, { dna := [6], fitness := 0 },
    { dna := [7], fitness := 0 }]

/-- Environment of the C4 witness: selection returns the single individual
`⟨[3], 1⟩`. -/
def envC4 : Env :=
  { constEnv with select := fun p _ _ _ => (p, [{ dna := [3], fitness := 1 }]) }

/-- Loop state of the C4 witness: the incumbent best-so-far has fitness 5. -/
def stC4 : LoopState := { defaultLoopState with best_individual := { dna := [0], fitness := 5 } }

/-- The individual returned by the C4 witness selector. -/
def indC4 : Individual := { dna := [3], fitness := 1 }

/-- Environment of the C1 witness run: sequential evaluation, budget 2. -/
def envC1w : Env := { constEnv with budget := 2 }

/-- Parameters of the C1 witness run: sequential evaluation with cutoff 1. -/
def paramsC1w : Params := { defaultParams with sequential := true, seq_cutoff := 1 }

/-- The run of the C1 witness environment. -/
def resC1w : LoopState := ((baseAlgorithm envC1w paramsC1w pop0 5).toOption).getD default

/-- The run of the C5 witness environment (the C1-counterexample
environment, whose parameters have TPA disabled). -/
def resC5w : LoopState := ((baseAlgorithm constEnv defaultParams pop0 5).toOption).getD default

/-- The state fed to `genStep` in the C8 witness. -/
def stC8 : LoopState := initialState constEnv defaultParams pop0 { dna := [5], fitness := 9 }

/-- The result of the C8 witness generation step. -/
def resC8 : LoopState × Bool := ((genStep constEnv false false stC8).toOption).getD default

/-- Environment of the C9 runs: the selector returns a constant population
of two individuals (size ≠ mu = 1); budget 100. -/
def envC9 : Env :=
  { constEnv with
    budget := 100,
    select := fun _ _ _ _ =>
      (defaultParams, [{ dna := [1], fitness := 1 }, { dna := [2], fitness := 2 }]) }

/-- The constant population returned by the C9 witness selector. -/
def qC9 : List Individual := [{ dna := [1], fitness := 1 }, { dna := [2], fitness := 2 }]

/-- Loop state of the C9 runs: one parent, one offspring seed. -/
def stC9 : LoopState :=
  { defaultLoopState with
    population := [{ dna := [5], fitness := 9 }],
    new_population := [{ dna := [0], fitness := 0 }],
    best_individual := { dna := [5], fitness := 9 } }

/-- Environment of the C9 counterexample: the selector returns an empty
population. -/
def envC9c : Env := { envC9 with select := fun p _ _ _ => (p, []) }

/-- Environment of the C10 witness: parallel evaluation, budget 100. -/
def envC10 : Env := { constEnv with parallel := true, budget := 100 }

/-- Loop state of the C10 witness: `lambda_ = 5` offspring seeds. -/
def stC10 : LoopState :=
  { defaultLoopState with
    new_population := List.replicate 5 { dna := [0], fitness := 0 },
    params := { defaultParams with lambda_ := 5 } }

/-! ### Field-preservation lemmas for the generation phases -/

theorem trimTPA_false (st : LoopState) : trimTPA false st = st := rfl

theorem trimTPA_used_budget (tpa : Bool) (st : LoopState) :
    (trimTPA tpa st).used_budget = st.used_budget := by
  unfold trimTPA; split_ifs <;> rfl

theorem trimTPA_population (tpa : Bool) (st : LoopState) :
    (trimTPA tpa st).population = st.population := by
  unfold trimTPA; split_ifs <;> rfl

theorem trimTPA_best_trace (tpa : Bool) (st : LoopState) :
    (trimTPA tpa st).best_fitness_over_time = st.best_fitness_over_time := by
  unfold trimTPA; split_ifs <;> rfl

theorem trimTPA_sigma_trace (tpa : Bool) (st : LoopState) :
    (trimTPA tpa st).sigma_over_time = st.sigma_over_time := by
  unfold trimTPA; split_ifs <;> rfl

theorem trimTPA_ulr (tpa : Bool) (st : LoopState) :
    (trimTPA tpa st).used_budget_at_last_restart = st.used_budget_at_last_restart := by
  unfold trimTPA; split_ifs <;> rfl

theorem trimTPA_warnings (tpa : Bool) (st : LoopState) :
    (trimTPA tpa st).warnings = st.warnings := by
  unfold trimTPA; split_ifs <;> rfl

theorem npApply_used_budget (E : Env) (seq : Bool) (st : LoopState) :
    (npApply E seq st).used_budget = (npRes E seq st).2.1 := rfl

theorem parEval_used_budget (E : Env) (seq : Bool) (st : LoopState) :
    (parEval E seq st).used_budget =
      if seq = true then (parBook E st).1 else st.used_budget + st.params.lambda_ := by
  unfold parEval; split_ifs <;> rfl

theorem evalPhase_population (E : Env) (seq : Bool) (st : LoopState) :
    (evalPhase E seq st).population = st.population := by
  unfold evalPhase parEval npApply; split_ifs <;> rfl

theorem evalPhase_best_trace (E : Env) (seq : Bool) (st : LoopState) :
    (evalPhase E seq st).best_fitness_over_time = st.best_fitness_over_time := by
  unfold evalPhase parEval npApply; split_ifs <;> rfl

theorem evalPhase_sigma_trace (E : Env) (seq : Bool) (st : LoopState) :
    (evalPhase E seq st).sigma_over_time = st.sigma_over_time := by
  unfold evalPhase parEval npApply; split_ifs <;> rfl

theorem evalPhase_ulr (E : Env) (seq : Bool) (st : LoopState) :
    (evalPhase E seq st).used_budget_at_last_restart = st.used_budget_at_last_restart := by
  unfold evalPhase parEval npApply; split_ifs <;> rfl

theorem evalPhase_warnings (E : Env) (seq : Bool) (st : LoopState) :
    (evalPhase E seq st).warnings = st.warnings := by
  unfold evalPhase parEval npApply; split_ifs <;> rfl

theorem evalPhase_params (E : Env) (seq : Bool) (st : LoopState) :
    (evalPhase E seq st).params = st.params := by
  unfold evalPhase parEval npApply; split_ifs <;> rfl

/-! ### Monotonicity and budget bounds for the evaluation loops -/

theorem npEval_ub_mono (E : Env) (seq : Bool) (p : Params) (bf : Int) :
    ∀ (l : List Individual) (i ub : Nat) (impr : Bool),
      ub ≤ (npEval E seq p bf l i ub impr).2.1 := by
  intro l
  induction l with
  | nil => intro i ub impr; exact Nat.le_refl ub
  | cons a t ih =>
    intro i ub impr
    show ub ≤ (npEval E seq p bf (a :: t) i ub impr).2.1
    unfold npEval
    split_ifs
    · exact Nat.le_succ ub
    · exact Nat.le_succ ub
    · exact Nat.le_trans (Nat.le_succ ub) (ih (i + 1) (ub + 1) _)
    · exact Nat.le_trans (Nat.le_succ ub) (ih (i + 1) (ub + 1) impr)

theorem npEval_budget (E : Env) (p : Params) (bf : Int) :
    ∀ (l : List Individual) (i ub : Nat) (impr : Bool), ub < E.budget →
      (npEval E true p bf l i ub impr).2.1 ≤ E.budget := by
  intro l
  induction l with
  | nil => intro i ub impr h; exact Nat.le_of_lt h
  | cons a t ih =>
    intro i ub impr h
    simp only [npEval, eq_self_iff_true, if_true]
    split_ifs with h1 h2
    · exact h
    · exact h
    · exact ih (i + 1) (ub + 1) _ (Nat.lt_of_le_of_ne h h2)

theorem parSeqBook_ub_mono (budget cutoff : Nat) (bf : Int) :
    ∀ (l : List Individual) (i ub : Nat) (impr : Bool),
      ub ≤ (parSeqBook budget cutoff bf l i ub impr).1 := by
  intro l
  induction l with
  | nil => intro i ub impr; exact Nat.le_refl ub
  | cons a t ih =>
    intro i ub impr
    unfold parSeqBook
    split_ifs
    · exact Nat.le_succ ub
    · exact Nat.le_succ ub
    · exact Nat.le_trans (Nat.le_succ ub) (ih (i + 1) (ub + 1) _)

theorem parSeqBook_budget (cutoff : Nat) (bf : Int) (budget : Nat) :
    ∀ (l : List Individual) (i ub : Nat) (impr : Bool), ub < budget →
      (parSeqBook budget cutoff bf l i ub impr).1 ≤ budget := by
  intro l
  induction l with
  | nil => intro i ub impr h; exact Nat.le_of_lt h
  | cons a t ih =>
    intro i ub impr h
    unfold parSeqBook
    split_ifs with h1 h2
    · exact h
    · exact Nat.le_of_eq h2
    · exact ih (i + 1) (ub + 1) _ (Nat.lt_of_le_of_ne h (fun hc => h2 hc))

theorem evalPhase_ub_mono (E : Env) (seq : Bool) (st : LoopState) :
    st.used_budget ≤ (evalPhase E seq st).used_budget := by
  unfold evalPhase
  split_ifs with hp
  · rw [parEval_used_budget]
    split_ifs with hs
    · exact parSeqBook_ub_mono _ _ _ _ _ _ _
    · exact Nat.le_add_right _ _
  · rw [npApply_used_budget]
    exact npEval_ub_mono E seq st.params st.best_individual.fitness st.new_population 0
      st.used_budget st.improvement_found

theorem evalPhase_budget (E : Env) (st : LoopState) (h : st.used_budget < E.budget) :
    (evalPhase E true st).used_budget ≤ E.budget := by
  unfold evalPhase
  split_ifs with hp
  · rw [parEval_used_budget]
    simp only [if_pos rfl]
    exact parSeqBook_budget _ _ _ _ _ _ _ h
  · rw [npApply_used_budget]
    exact npEval_budget E st.params st.best_individual.fitness st.new_population 0
      st.used_budget st.improvement_found h

/-! ### Inversion lemmas for the fallible phases and the generation step -/

theorem truncatePhase_ok (st st' : LoopState) (h : truncatePhase st = Except.ok st') :
    ∃ i, st.last_i = some i ∧
      st' = { st with new_population := st.new_population.take (i + 1) } := by
  unfold truncatePhase at h
  cases hl : st.last_i with
  | none => rw [hl] at h; exact absurd h (by simp)
  | some i =>
    rw [hl] at h
    refine ⟨i, rfl, ?_⟩
    have := Except.ok.inj h
    exact this.symm

theorem selectTrackPhase_ok (E : Env) (st st' : LoopState)
    (h : selectTrackPhase E st = Except.ok st') :
    (selOut E st).2 ≠ [] ∧
    st' = { st with
      fitnesses := sortInts (st.new_population.map (fun ind => ind.fitness)),
      params := (selOut E st).1,
      population := (selOut E st).2,
      generation_size :=
        st.generation_size ++ [st.used_budget - st.best_fitness_over_time.length],
      sigma_over_time := st.sigma_over_time ++
        List.replicate (st.used_budget - st.sigma_over_time.length) (selOut E st).1.sigma_mean,
      best_fitness_over_time := st.best_fitness_over_time ++
        List.replicate (st.used_budget - st.best_fitness_over_time.length)
          (headFit (selOut E st).2),
      best_individual :=
        if headFit (selOut E st).2 < st.best_individual.fitness then
          copyIndividual (headInd (selOut E st).2)
        else st.best_individual } := by
  unfold selectTrackPhase at h
  by_cases hc : (selOut E st).2 = []
  · rw [if_pos hc] at h
    exact absurd h (by simp)
  · rw [if_neg hc] at h
    exact ⟨hc, (Except.ok.inj h).symm⟩

theorem except_bind_ok {α β : Type} (a : α) (f : α → Except String β) :
    Except.bind (Except.ok a) f = f a := rfl

theorem except_bind_error {α β : Type} (e : String) (f : α → Except String β) :
    Except.bind (Except.error e : Except String α) f = Except.error e := rfl

theorem genStep_ok_cases (E : Env) (seq tpa : Bool) (st st' : LoopState) (b : Bool)
    (h : genStep E seq tpa st = Except.ok (st', b)) :
    ∃ st3 st4,
      truncatePhase (evalPhase E seq (trimTPA tpa st)) = Except.ok st3 ∧
      selectTrackPhase E st3 = Except.ok st4 ∧
      ((E.budget ≤ st4.used_budget ∧ st' = st4 ∧ b = true) ∨
       (¬ E.budget ≤ st4.used_budget ∧ st' = contPhase E seq tpa st4 ∧ b = false)) := by
  unfold genStep at h
  cases htr : truncatePhase (evalPhase E seq (trimTPA tpa st)) with
  | error e => rw [htr, except_bind_error] at h; exact absurd h (by simp)
  | ok st3 =>
    rw [htr, except_bind_ok] at h
    cases hst : selectTrackPhase E st3 with
    | error e => rw [hst, except_bind_error] at h; exact absurd h (by simp)
    | ok st4 =>
      rw [hst, except_bind_ok] at h
      by_cases hb : E.budget ≤ st4.used_budget
      · rw [if_pos hb] at h
        have hpair := Except.ok.inj h
        refine ⟨st3, st4, rfl, hst, Or.inl ⟨hb, ?_, ?_⟩⟩
        · exact (congrArg Prod.fst hpair).symm
        · exact (congrArg Prod.snd hpair).symm
      · rw [if_neg hb] at h
        have hpair := Except.ok.inj h
        refine ⟨st3, st4, rfl, hst, Or.inr ⟨hb, ?_, ?_⟩⟩
        · exact (congrArg Prod.fst hpair).symm
        · exact (congrArg Prod.snd hpair).symm

/-! ### Field-preservation lemmas for the post-tracking phases -/

theorem recombinePhase_population (E : Env) (st : LoopState) :
    (recombinePhase E st).population = st.population := by
  unfold recombinePhase; split_ifs <;> rfl

theorem recombinePhase_used_budget (E : Env) (st : LoopState) :
    (recombinePhase E st).used_budget = st.used_budget := by
  unfold recombinePhase; split_ifs <;> rfl

theorem recombinePhase_best_trace (E : Env) (st : LoopState) :
    (recombinePhase E st).best_fitness_over_time = st.best_fitness_over_time := by
  unfold recombinePhase; split_ifs <;> rfl

theorem recombinePhase_sigma_trace (E : Env) (st : LoopState) :
    (recombinePhase E st).sigma_over_time = st.sigma_over_time := by
  unfold recombinePhase; split_ifs <;> rfl

theorem recombinePhase_ulr (E : Env) (st : LoopState) :
    (recombinePhase E st).used_budget_at_last_restart = st.used_budget_at_last_restart := by
  unfold recombinePhase; split_ifs <;> rfl

theorem recombinePhase_warnings (E : Env) (st : LoopState) :
    (recombinePhase E st).warnings =
      if st.population.length = st.params.mu then st.warnings else st.warnings + 1 := by
  unfold recombinePhase; split_ifs <;> rfl

theorem tpaPhase_population (E : Env) (seq tpa : Bool) (st : LoopState) :
    (tpaPhase E seq tpa st).population = st.population := by
  unfold tpaPhase; split_ifs <;> rfl

theorem tpaPhase_best_trace (E : Env) (seq tpa : Bool) (st : LoopState) :
    (tpaPhase E seq tpa st).best_fitness_over_time = st.best_fitness_over_time := by
  unfold tpaPhase; split_ifs <;> rfl

theorem tpaPhase_sigma_trace (E : Env) (seq tpa : Bool) (st : LoopState) :
    (tpaPhase E seq tpa st).sigma_over_time = st.sigma_over_time := by
  unfold tpaPhase; split_ifs <;> rfl

theorem tpaPhase_ulr (E : Env) (seq tpa : Bool) (st : LoopState) :
    (tpaPhase E seq tpa st).used_budget_at_last_restart = st.used_budget_at_last_restart := by
  unfold tpaPhase; split_ifs <;> rfl

theorem tpaPhase_warnings (E : Env) (seq tpa : Bool) (st : LoopState) :
    (tpaPhase E seq tpa st).warnings = st.warnings := by
  unfold tpaPhase; split_ifs <;> rfl

theorem tpaPhase_used_budget (E : Env) (seq tpa : Bool) (st : LoopState) :
    (tpaPhase E seq tpa st).used_budget =
      if tpa = true then
        (if E.budget < st.used_budget + 2 ∧ seq = true then E.budget else st.used_budget + 2)
      else st.used_budget := by
  unfold tpaPhase; split_ifs <;> rfl

theorem adaptPhase_population (E : Env) (st : LoopState) :
    (adaptPhase E st).population = st.population := rfl

theorem adaptPhase_used_budget (E : Env) (st : LoopState) :
    (adaptPhase E st).used_budget = st.used_budget := rfl

theorem adaptPhase_best_trace (E : Env) (st : LoopState) :
    (adaptPhase E st).best_fitness_over_time = st.best_fitness_over_time := rfl

theorem adaptPhase_sigma_trace (E : Env) (st : LoopState) :
    (adaptPhase E st).sigma_over_time = st.sigma_over_time := rfl

theorem adaptPhase_ulr (E : Env) (st : LoopState) :
    (adaptPhase E st).used_budget_at_last_restart = st.used_budget_at_last_restart := rfl

theorem adaptPhase_warnings (E : Env) (st : LoopState) :
    (adaptPhase E st).warnings = st.warnings := rfl

theorem ipopPhase_population (E : Env) (st : LoopState) :
    (ipopPhase E st).population = st.population := by
  unfold ipopPhase applyRestart; split_ifs <;> rfl

theorem ipopPhase_used_budget (E : Env) (st : LoopState) :
    (ipopPhase E st).used_budget = st.used_budget := by
  unfold ipopPhase applyRestart; split_ifs <;> rfl

theorem ipopPhase_best_trace (E : Env) (st : LoopState) :
    (ipopPhase E st).best_fitness_over_time = st.best_fitness_over_time := by
  unfold ipopPhase applyRestart; split_ifs <;> rfl

theorem ipopPhase_sigma_trace (E : Env) (st : LoopState) :
    (ipopPhase E st).sigma_over_time = st.sigma_over_time := by
  unfold ipopPhase applyRestart; split_ifs <;> rfl

theorem ipopPhase_warnings (E : Env) (st : LoopState) :
    (ipopPhase E st).warnings = st.warnings := by
  unfold ipopPhase applyRestart; split_ifs <;> rfl

theorem ipopPhase_ulr (E : Env) (st : LoopState) :
    (ipopPhase E st).used_budget_at_last_restart = st.used_budget_at_last_restart ∨
    (ipopPhase E st).used_budget_at_last_restart = st.used_budget := by
  unfold ipopPhase applyRestart
  split_ifs
  · exact Or.inl rfl
  · exact Or.inr rfl
  · exact Or.inr rfl
  · exact Or.inr rfl
  · exact Or.inl rfl

theorem contPhase_population (E : Env) (seq tpa : Bool) (st : LoopState) :
    (contPhase E seq tpa st).population = st.population := by
  unfold contPhase
  rw [ipopPhase_population, adaptPhase_population, tpaPhase_population,
    recombinePhase_population]

theorem contPhase_best_trace (E : Env) (seq tpa : Bool) (st : LoopState) :
    (contPhase E seq tpa st).best_fitness_over_time = st.best_fitness_over_time := by
  unfold contPhase
  rw [ipopPhase_best_trace, adaptPhase_best_trace, tpaPhase_best_trace,
    recombinePhase_best_trace]

theorem contPhase_sigma_trace (E : Env) (seq tpa : Bool) (st : LoopState) :
    (contPhase E seq tpa st).sigma_over_time = st.sigma_over_time := by
  unfold contPhase
  rw [ipopPhase_sigma_trace, adaptPhase_sigma_trace, tpaPhase_sigma_trace,
    recombinePhase_sigma_trace]

theorem contPhase_warnings (E : Env) (seq tpa : Bool) (st : LoopState) :
    (contPhase E seq tpa st).warnings =
      if st.population.length = st.params.mu then st.warnings else st.warnings + 1 := by
  unfold contPhase
  rw [ipopPhase_warnings, adaptPhase_warnings, tpaPhase_warnings, recombinePhase_warnings]

theorem contPhase_used_budget (E : Env) (seq tpa : Bool) (st : LoopState) :
    (contPhase E seq tpa st).used_budget =
      if tpa = true then
        (if E.budget < st.used_budget + 2 ∧ seq = true then E.budget else st.used_budget + 2)
      else st.used_budget := by
  unfold contPhase
  rw [ipopPhase_used_budget, adaptPhase_used_budget, tpaPhase_used_budget,
    recombinePhase_used_budget]

theorem contPhase_ulr (E : Env) (seq tpa : Bool) (st : LoopState) :
    (contPhase E seq tpa st).used_budget_at_last_restart = st.used_budget_at_last_restart ∨
    (contPhase E seq tpa st).used_budget_at_last_restart =
      (contPhase E seq tpa st).used_budget := by
  unfold contPhase
  rcases ipopPhase_ulr E (adaptPhase E (tpaPhase E seq tpa (recombinePhase E st))) with h | h
  · left
    rw [h, adaptPhase_ulr, tpaPhase_ulr, recombinePhase_ulr]
  · right
    rw [h, ipopPhase_used_budget, adaptPhase_used_budget]

/-! ### The generic loop-invariant rule for `runLoop` -/

theorem runLoop_invariant (E : Env) (seq tpa : Bool) (P : LoopState → Prop)
    (hstep : ∀ st st' b, st.used_budget < E.budget →
      genStep E seq tpa st = Except.ok (st', b) → P st → P st') :
    ∀ (fuel : Nat) (st st' : LoopState), P st →
      runLoop E seq tpa fuel st = Except.ok st' → P st' := by
  intro fuel
  induction fuel with
  | zero =>
    intro st st' hP h
    have : st = st' := Except.ok.inj h
    rwa [this] at hP
  | succ n ih =>
    intro st st' hP h
    unfold runLoop at h
    split_ifs at h with hlt
    · cases hg : genStep E seq tpa st with
      | error e => rw [hg, except_bind_error] at h; exact absurd h (by simp)
      | ok pr =>
        rw [hg, except_bind_ok] at h
        have hP' : P pr.1 := hstep st pr.1 pr.2 hlt hg hP
        by_cases hb : pr.2 = true
        · rw [if_pos hb] at h
          have : pr.1 = st' := Except.ok.inj h
          rwa [this] at hP'
        · rw [if_neg hb] at h
          exact ih pr.1 st' hP' h
    · have : st = st' := Except.ok.inj h
      rwa [this] at hP

/-! ### Lemmas about `nonIncreasing` and trace extension -/

theorem nonIncr_replicate (k : Nat) (c : Int) : nonIncreasing (List.replicate k c) = true := by
  induction k with
  | zero => rfl
  | succ n ih =>
    cases n with
    | zero => rfl
    | succ m =>
      rw [List.replicate_succ, List.replicate_succ]
      show (decide (c ≤ c) && nonIncreasing (c :: List.replicate m c)) = true
      rw [← List.replicate_succ]
      simp only [ih, decide_eq_true_eq, Bool.and_true]
      simp

theorem getLast?_replicate_succ (k : Nat) (c : Int) :
    (List.replicate (k + 1) c).getLast? = some c := by
  induction k with
  | zero => rfl
  | succ m ih =>
    rw [List.replicate_succ, List.replicate_succ]
    rw [List.getLast?_cons_cons, ← List.replicate_succ]
    exact ih

theorem nonIncr_append_replicate (c : Int) :
    ∀ (l : List Int) (k : Nat), nonIncreasing l = true →
      (∀ v, l.getLast? = some v → c ≤ v) →
      nonIncreasing (l ++ List.replicate k c) = true := by
  intro l
  induction l with
  | nil =>
    intro k _ _
    simpa using nonIncr_replicate k c
  | cons a t ih =>
    cases t with
    | nil =>
      intro k _ hlast
      have hca : c ≤ a := hlast a rfl
      cases k with
      | zero => rfl
      | succ m =>
        show (decide (c ≤ a) && nonIncreasing (c :: List.replicate m c)) = true
        rw [show (c :: List.replicate m c) = List.replicate (m + 1) c from
          (List.replicate_succ c m).symm]
        simp [hca, nonIncr_replicate]
    | cons b t2 =>
      intro k hni hlast
      have h1 : b ≤ a ∧ nonIncreasing (b :: t2) = true := by
        have : (decide (b ≤ a) && nonIncreasing (b :: t2)) = true := hni
        simpa using this
      have hlast2 : ∀ v, (b :: t2).getLast? = some v → c ≤ v := by
        intro v hv
        exact hlast v (by rw [List.getLast?_cons_cons]; exact hv)
      have h3 := ih k h1.2 hlast2
      rw [List.cons_append] at h3
      show (decide (b ≤ a) && nonIncreasing (b :: (t2 ++ List.replicate k c))) = true
      simp [h1.1, h3]

/-! ### Characterisation of the non-sequential evaluation loop -/

theorem npEval_nonseq (E : Env) (p : Params) (bf : Int) :
    ∀ (l : List Individual) (i ub : Nat) (impr : Bool),
      (npEval E false p bf l i ub impr).1.length = l.length ∧
      (npEval E false p bf l i ub impr).2.1 = ub + l.length ∧
      (npEval E false p bf l i ub impr).2.2 = impr := by
  intro l
  induction l with
  | nil => intro i ub impr; exact ⟨rfl, rfl, rfl⟩
  | cons a t ih =>
    intro i ub impr
    have hr := ih (i + 1) (ub + 1) impr
    refine ⟨?_, ?_, ?_⟩
    · show (consFst (npMut E p ub a) (npEval E false p bf t (i + 1) (ub + 1) impr)).1.length =
        t.length + 1
      unfold consFst
      simp [hr.1]
    · show (consFst (npMut E p ub a) (npEval E false p bf t (i + 1) (ub + 1) impr)).2.1 =
        ub + (t.length + 1)
      unfold consFst
      simp only [hr.2.1]
      omega
    · show (consFst (npMut E p ub a) (npEval E false p bf t (i + 1) (ub + 1) impr)).2.2 = impr
      unfold consFst
      simp [hr.2.2]

theorem mutEvalAll_length (E : Env) (p : Params) (ub0 : Nat) :
    ∀ (l : List Individual) (idx : Nat), (mutEvalAll E p ub0 idx l).length = l.length := by
  intro l
  induction l with
  | nil => intro idx; rfl
  | cons a t ih => intro idx; simp [mutEvalAll, ih (idx + 1)]

/-! ### Claim theorems -/

/-- C1 (counterexample): the claim "for every run of `baseAlgorithm` the
final `used_budget` is at most `budget + 2`" is false.  Without sequential
evaluation the mid-generation budget check of lines 413-414 is skipped, so
with `budget = 1` and four offspring the run of the concrete environment
`constEnv` ends with `used_budget = 4 > 1 + 2` — even though TPA is
disabled. -/
theorem C1_budget_overshoot_counterexample :
    (baseAlgorithm constEnv defaultParams pop0 5).map (fun s => s.used_budget) =
      Except.ok 4 ∧
    constEnv.budget = 1 ∧ defaultParams.tpa = false ∧ ¬ (4 ≤ 1 + 2) := by
  refine ⟨rfl, rfl, rfl, ?_⟩
  omega

/-- C2 (counterexample): the best-fitness trace is not monotonically
non-increasing for every selector variant.  With the non-elitist `Sel.best`
selector (offspring only) and offspring whose fitness worsens over the
generations, the run of `envC2` produces the trace `[0, 1]`, which
increases. -/
theorem C2_trace_not_monotone_counterexample :
    (baseAlgorithm envC2 defaultParams pop0 9).map (fun s => s.best_fitness_over_time) =
      Except.ok [0, 1] ∧
    nonIncreasing [0, 1] = false := ⟨rfl, rfl⟩

/-- C3: sequential evaluation with `seq_cutoff = mu = 3`, offspring
evaluated in the fixed list order, first improvement over the best-so-far
(reference fitness 5) at 0-based index 4: exactly 5 offspring are evaluated
(for any continuation of the offspring list, so in particular not the full
`lambda = 8` of `scenario8`), `used_budget` grows by exactly 5, and the
improvement flag is reset to `false` by the early stop. -/
theorem C3_sequential_cutoff_scenario :
    ∀ tail : List Individual,
      (npEval envC3 true paramsC3 5 (scenario5 ++ tail) 0 0 false).1.length = 5 ∧
      (npEval envC3 true paramsC3 5 (scenario5 ++ tail) 0 0 false).2.1 = 5 ∧
      (npEval envC3 true paramsC3 5 (scenario5 ++ tail) 0 0 false).2.2 = false ∧
      scenario8.length = 8 ∧ paramsC3.seq_cutoff = 3 ∧ paramsC3.mu = 3 :=
  fun _tail => ⟨rfl, rfl, rfl, rfl, rfl, rfl⟩

/-- C4: in the TRACK step the best-so-far individual is replaced exactly
when the newly selected population's first individual has strictly lower
fitness than the incumbent, the recorded snapshot being the copy of that
individual; the copy is a full value snapshot (`copyIndividual ind = ind`),
so no later in-place mutation of the live population can change it. -/
theorem C4_track_best_update (E : Env) (st : LoopState) (ind : Individual)
    (rest : List Individual) (hsel : (selOut E st).2 = ind :: rest) :
    (selectTrackPhase E st).map (fun s => s.best_individual) =
      Except.ok (if ind.fitness < st.best_individual.fitness then copyIndividual ind
        else st.best_individual) ∧
    copyIndividual ind = ind := by
  constructor
  · simp [selectTrackPhase, hsel, headFit, headInd, Except.map]
  · rfl

/-- C4 (witness): the TRACK-step characterisation evaluated on the concrete
environment `envC4`, whose selector returns the single individual `indC4`
of fitness 1 against an incumbent of fitness 5. -/
theorem C4_track_best_update_witness :
    (selectTrackPhase envC4 stC4).map (fun s => s.best_individual) =
      Except.ok (if indC4.fitness < stC4.best_individual.fitness then copyIndividual indC4
        else stC4.best_individual) ∧
    copyIndividual indC4 = indC4 :=
  C4_track_best_update envC4 stC4 indC4 [] rfl

/-- C5 (counterexample): the claim that both traces have length exactly the
final `used_budget` in every run, including runs whose last generation's TPA
probes consumed budget, is false: in the run of `envC5` (budget 4, TPA
enabled) the probe evaluations of lines 440-449 raise `used_budget` from 2
to 4 after the traces were last extended, so the loop exits with traces of
length 2 while `used_budget = 4`. -/
theorem C5_trace_length_counterexample :
    (baseAlgorithm envC5 paramsTpa pop0 9).map
      (fun s => (s.used_budget, s.best_fitness_over_time.length, s.sigma_over_time.length)) =
      Except.ok (4, 2, 2) ∧
    (2 : Nat) ≠ 4 := by
  refine ⟨rfl, ?_⟩
  omega

/-- C6: when TPA is enabled, the probe step after selection evaluates the
two probe points `wcm ± (wcm - wcm_old) * tpa_factor`, increments
`used_budget` by exactly 2 — capped back to the total budget exactly when it
would overshoot and sequential evaluation is active — performs exactly two
extra fitness evaluations, and sets `tpa_result` to `+1` when the plus probe
has strictly lower fitness than the minus probe and to `-1` otherwise. -/
theorem C6_tpa_step (E : Env) (sequential : Bool) (st : LoopState) :
    (tpaPhase E sequential true st).used_budget =
      (if E.budget < st.used_budget + 2 ∧ sequential = true then E.budget
       else st.used_budget + 2) ∧
    (tpaPhase E sequential true st).evals = st.evals + 2 ∧
    (tpaPhase E sequential true st).params.tpa_result = some
      (if E.fitnessFunction (vecAdd st.params.wcm
            (vecSmul st.params.tpa_factor (vecSub st.params.wcm st.params.wcm_old))) <
          E.fitnessFunction (vecSub st.params.wcm
            (vecSmul st.params.tpa_factor (vecSub st.params.wcm st.params.wcm_old)))
        then 1 else -1) := by
  refine ⟨?_, ?_, ?_⟩ <;> simp [tpaPhase]

/-- C7: in `customizedES` with pairwise selection the requested `lambda_` is
made even before any `Individual` is created, `mu` is clamped to at most
half the effective lambda (`lambda_ - 2` under TPA), for a requested
`lambda_ = 6` without TPA the resulting `mu` is at most 3, and the
population created afterwards has exactly the adjusted `mu` members — the
adjustment is a total function, so invalid size combinations are silently
clamped rather than raising. -/
theorem C7_pairwise_clamp :
    ∀ (mu lambda_ : Int) (tp : Bool),
      pyMod (customizedES_sizes mu lambda_ true tp).1 2 = 0 ∧
      (customizedES_sizes mu lambda_ true tp).2 ≤
        pyFloorDiv (customizedES_eff lambda_ tp) 2 ∧
      (customizedES_sizes mu 6 true false).2 ≤ 3 ∧
      (customizedES_population 2 (customizedES_sizes mu 6 true false).2).length =
        (customizedES_sizes mu 6 true false).2.toNat := by
  intro mu lambda_ tp
  have hclamp : ∀ (m l : Int) (t : Bool),
      (customizedES_sizes m l true t).2 ≤ pyFloorDiv (customizedES_eff l t) 2 := by
    intro m l t
    show (if pyFloorDiv (customizedES_eff l t) 2 < m then pyFloorDiv (customizedES_eff l t) 2
      else m) ≤ pyFloorDiv (customizedES_eff l t) 2
    split_ifs with h
    · exact Int.le_refl _
    · omega
  have heven : pyMod (customizedES_sizes mu lambda_ true tp).1 2 = 0 := by
    show pyMod (customizedES_l2 lambda_ tp) 2 = 0
    unfold customizedES_l2 customizedES_l1 pyMod
    split_ifs <;> omega
  have h6 : pyFloorDiv (customizedES_eff 6 false) 2 = 3 := by decide
  refine ⟨heven, hclamp mu lambda_ tp, ?_, ?_⟩
  · have := hclamp mu 6 false
    rw [h6] at this
    exact this
  · simp [customizedES_population]

/-- C9 (counterexample): the claim that a selector returning a population of
a size different from `mu` never makes the run raise is false: when the
selector returns the empty population (size 0 ≠ mu = 1), the TRACK step's
`population[0]` raises `IndexError` and the generation step aborts. -/
theorem C9_empty_selection_counterexample :
    genStep envC9c false false stC9 = Except.error "IndexError: list index out of range" ∧
    (envC9c.select defaultParams [] [] 0).2.length ≠ stC9.params.mu := by
  refine ⟨rfl, ?_⟩
  decide

/-- C10: with `parallel = True`, sequential evaluation disabled and TPA
active, a generation charges `used_budget` by the full `parameters.lambda_`
(line 397) although the two seeds dropped by the TPA trim of lines 366-367
were never mutated or evaluated: only `lambda_ - 2` fitness evaluations are
performed. -/
theorem C10_parallel_budget_charge (E : Env) (st : LoopState)
    (hpar : E.parallel = true)
    (hlen : st.new_population.length = st.params.lambda_) :
    (evalPhase E false (trimTPA true st)).used_budget =
      st.used_budget + st.params.lambda_ ∧
    (evalPhase E false (trimTPA true st)).evals =
      st.evals + (st.params.lambda_ - 2) := by
  constructor
  · unfold evalPhase
    rw [if_pos hpar, parEval_used_budget]
    rw [if_neg (by simp)]
    rfl
  · have hx : (trimTPA true st).new_population.length = st.params.lambda_ - 2 := by
      unfold trimTPA
      rw [if_pos rfl]
      show (st.new_population.take (st.new_population.length - 2)).length =
        st.params.lambda_ - 2
      rw [List.length_take, hlen]
      omega
    unfold evalPhase
    rw [if_pos hpar]
    unfold parEval
    rw [if_neg (by simp)]
    show st.evals + (parBatch E (trimTPA true st)).length = st.evals + (st.params.lambda_ - 2)
    unfold parBatch
    rw [mutEvalAll_length, hx]

/-- C10 (witness): the parallel budget-charge equations evaluated on the
concrete environment `envC10` with `lambda_ = 5`: the generation charges 5
budget units while performing only 3 fitness evaluations. -/
theorem C10_parallel_budget_charge_witness :
    (evalPhase envC10 false (trimTPA true stC10)).used_budget =
      stC10.used_budget + stC10.params.lambda_ ∧
    (evalPhase envC10 false (trimTPA true stC10)).evals =
      stC10.evals + (stC10.params.lambda_ - 2) :=
  C10_parallel_budget_charge envC10 stC10 rfl rfl

/-- C1 (amended): with sequential evaluation enabled the final `used_budget`
of every terminating `baseAlgorithm` run is at most `budget` — evaluation
breaks as soon as the budget is exhausted mid-generation (lines 413-414) and
the TPA overshoot is capped back to `budget` (lines 448-449), so not even
the claimed `+2` slack occurs; without sequential evaluation the bound
`budget + 2` can be exceeded (see the counterexample). -/
theorem C1_sequential_budget_bound (E : Env) (params0 : Params) (pop : List Individual)
    (fuel : Nat) (st' : LoopState) (hseq : params0.sequential = true)
    (hrun : baseAlgorithm E params0 pop fuel = Except.ok st') :
    st'.used_budget ≤ E.budget := by
  have hstep : ∀ st stN b, st.used_budget < E.budget →
      genStep E true params0.tpa st = Except.ok (stN, b) →
      st.used_budget ≤ E.budget → stN.used_budget ≤ E.budget := by
    intro st stN b hlt hg _
    obtain ⟨st3, st4, htr, hst, hcase⟩ := genStep_ok_cases E true params0.tpa st stN b hg
    obtain ⟨i, hli, hst3⟩ := truncatePhase_ok _ _ htr
    obtain ⟨hne, hst4⟩ := selectTrackPhase_ok E _ _ hst
    have hub4 : st4.used_budget = (evalPhase E true (trimTPA params0.tpa st)).used_budget := by
      rw [hst4, hst3]
    have heval : (evalPhase E true (trimTPA params0.tpa st)).used_budget ≤ E.budget :=
      evalPhase_budget E (trimTPA params0.tpa st) (by rw [trimTPA_used_budget]; exact hlt)
    rcases hcase with ⟨_, rfl, _⟩ | ⟨hb4, rfl, _⟩
    · rw [hub4]; exact heval
    · rw [contPhase_used_budget]
      have hle4 : st4.used_budget ≤ E.budget := Nat.le_of_not_le hb4
      split_ifs with h1 h2
      · exact Nat.le_refl _
      · have h2' : ¬ E.budget < st4.used_budget + 2 := fun hc => h2 ⟨hc, rfl⟩
        omega
      · exact hle4
  unfold baseAlgorithm at hrun
  cases pop with
  | nil => exact absurd hrun (by simp)
  | cons first rest =>
    rw [hseq] at hrun
    exact runLoop_invariant E true params0.tpa (fun s => s.used_budget ≤ E.budget) hstep fuel
      (initialState E params0 (first :: rest) first) st' (Nat.zero_le _) hrun

/-- C1 (witness): the sequential budget bound applied to the concrete
sequential run of `envC1w` (budget 2), which terminates with
`used_budget = 2`. -/
theorem C1_sequential_budget_bound_witness : resC1w.used_budget ≤ envC1w.budget :=
  C1_sequential_budget_bound envC1w paramsC1w pop0 5 resC1w rfl rfl

/-- C5 (amended): in every terminating run the step-size trace and the
best-fitness trace always have the same length, and when TPA is disabled
this common length equals the final `used_budget`.  When TPA is enabled the
equality with `used_budget` can fail, because the probe evaluations of
lines 440-449 consume budget after the traces were last extended (see the
counterexample). -/
theorem C5_trace_lengths (E : Env) (params0 : Params) (pop : List Individual)
    (fuel : Nat) (st' : LoopState)
    (hrun : baseAlgorithm E params0 pop fuel = Except.ok st') :
    st'.sigma_over_time.length = st'.best_fitness_over_time.length ∧
    (params0.tpa = false → st'.best_fitness_over_time.length = st'.used_budget) := by
  have hstepA : ∀ (seq tpa : Bool) st stN b, st.used_budget < E.budget →
      genStep E seq tpa st = Except.ok (stN, b) →
      (st.sigma_over_time.length = st.best_fitness_over_time.length ∧
        st.best_fitness_over_time.length ≤ st.used_budget) →
      (stN.sigma_over_time.length = stN.best_fitness_over_time.length ∧
        stN.best_fitness_over_time.length ≤ stN.used_budget) := by
    intro seq tpa st stN b hlt hg hP
    obtain ⟨st3, st4, htr, hst, hcase⟩ := genStep_ok_cases E seq tpa st stN b hg
    obtain ⟨i, hli, hst3⟩ := truncatePhase_ok _ _ htr
    obtain ⟨hne, hst4⟩ := selectTrackPhase_ok E _ _ hst
    have hsig3 : st3.sigma_over_time = st.sigma_over_time := by
      rw [hst3]
      show (evalPhase E seq (trimTPA tpa st)).sigma_over_time = st.sigma_over_time
      rw [evalPhase_sigma_trace, trimTPA_sigma_trace]
    have hbest3 : st3.best_fitness_over_time = st.best_fitness_over_time := by
      rw [hst3]
      show (evalPhase E seq (trimTPA tpa st)).best_fitness_over_time =
        st.best_fitness_over_time
      rw [evalPhase_best_trace, trimTPA_best_trace]
    have hub3 : st3.used_budget = (evalPhase E seq (trimTPA tpa st)).used_budget := by
      rw [hst3]
    have hmono : st.used_budget ≤ st3.used_budget := by
      rw [hub3]
      calc st.used_budget = (trimTPA tpa st).used_budget := (trimTPA_used_budget tpa st).symm
        _ ≤ (evalPhase E seq (trimTPA tpa st)).used_budget := evalPhase_ub_mono E seq _
    have hsig4 : st4.sigma_over_time.length =
        st3.sigma_over_time.length + (st3.used_budget - st3.sigma_over_time.length) := by
      rw [hst4]
      show (st3.sigma_over_time ++
        List.replicate (st3.used_budget - st3.sigma_over_time.length)
          (selOut E st3).1.sigma_mean).length = _
      rw [List.length_append, List.length_replicate]
    have hbest4 : st4.best_fitness_over_time.length =
        st3.best_fitness_over_time.length +
          (st3.used_budget - st3.best_fitness_over_time.length) := by
      rw [hst4]
      show (st3.best_fitness_over_time ++
        List.replicate (st3.used_budget - st3.best_fitness_over_time.length)
          (headFit (selOut E st3).2)).length = _
      rw [List.length_append, List.length_replicate]
    have hub4 : st4.used_budget = st3.used_budget := by rw [hst4]
    have hP3a : st3.sigma_over_time.length = st3.best_fitness_over_time.length := by
      rw [hsig3, hbest3]; exact hP.1
    have hP3b : st3.best_fitness_over_time.length ≤ st3.used_budget := by
      rw [hbest3]; exact Nat.le_trans hP.2 hmono
    have hP4 : st4.sigma_over_time.length = st4.best_fitness_over_time.length ∧
        st4.best_fitness_over_time.length ≤ st4.used_budget := by
      constructor
      · rw [hsig4, hbest4, hP3a]
      · rw [hbest4, hub4]; omega
    rcases hcase with ⟨_, rfl, _⟩ | ⟨hb4, rfl, _⟩
    · exact hP4
    · have hle4 : st4.used_budget ≤ E.budget := Nat.le_of_not_le hb4
      refine ⟨?_, ?_⟩
      · rw [contPhase_sigma_trace, contPhase_best_trace]; exact hP4.1
      · rw [contPhase_best_trace, contPhase_used_budget]
        split_ifs with h1 h2
        · omega
        · omega
        · exact hP4.2
  have hstepB : ∀ (seq : Bool) st stN b, st.used_budget < E.budget →
      genStep E seq false st = Except.ok (stN, b) →
      (st.best_fitness_over_time.length = st.used_budget ∧
        st.sigma_over_time.length = st.used_budget) →
      (stN.best_fitness_over_time.length = stN.used_budget ∧
        stN.sigma_over_time.length = stN.used_budget) := by
    intro seq st stN b hlt hg hP
    obtain ⟨st3, st4, htr, hst, hcase⟩ := genStep_ok_cases E seq false st stN b hg
    obtain ⟨i, hli, hst3⟩ := truncatePhase_ok _ _ htr
    obtain ⟨hne, hst4⟩ := selectTrackPhase_ok E _ _ hst
    have hsig3 : st3.sigma_over_time = st.sigma_over_time := by
      rw [hst3]
      show (evalPhase E seq (trimTPA false st)).sigma_over_time = st.sigma_over_time
      rw [evalPhase_sigma_trace, trimTPA_sigma_trace]
    have hbest3 : st3.best_fitness_over_time = st.best_fitness_over_time := by
      rw [hst3]
      show (evalPhase E seq (trimTPA false st)).best_fitness_over_time =
        st.best_fitness_over_time
      rw [evalPhase_best_trace, trimTPA_best_trace]
    have hub3 : st3.used_budget = (evalPhase E seq (trimTPA false st)).used_budget := by
      rw [hst3]
    have hmono : st.used_budget ≤ st3.used_budget := by
      rw [hub3]
      calc st.used_budget = (trimTPA false st).used_budget := (trimTPA_used_budget false st).symm
        _ ≤ (evalPhase E seq (trimTPA false st)).used_budget := evalPhase_ub_mono E seq _
    have hsig4 : st4.sigma_over_time.length =
        st3.sigma_over_time.length + (st3.used_budget - st3.sigma_over_time.length) := by
      rw [hst4]
      show (st3.sigma_over_time ++
        List.replicate (st3.used_budget - st3.sigma_over_time.length)
          (selOut E st3).1.sigma_mean).length = _
      rw [List.length_append, List.length_replicate]
    have hbest4 : st4.best_fitness_over_time.length =
        st3.best_fitness_over_time.length +
          (st3.used_budget - st3.best_fitness_over_time.length) := by
      rw [hst4]
      show (st3.best_fitness_over_time ++
        List.replicate (st3.used_budget - st3.best_fitness_over_time.length)
          (headFit (selOut E st3).2)).length = _
      rw [List.length_append, List.length_replicate]
    have hub4 : st4.used_budget = st3.used_budget := by rw [hst4]
    have hP4 : st4.best_fitness_over_time.length = st4.used_budget ∧
        st4.sigma_over_time.length = st4.used_budget := by
      constructor
      · rw [hbest4, hub4, hbest3, hP.1]; omega
      · rw [hsig4, hub4, hsig3, hP.2]; omega
    rcases hcase with ⟨_, rfl, _⟩ | ⟨hb4, rfl, _⟩
    · exact hP4
    · refine ⟨?_, ?_⟩
      · rw [contPhase_best_trace, contPhase_used_budget]
        simp only [Bool.false_eq_true, if_false]
        exact hP4.1
      · rw [contPhase_sigma_trace, contPhase_used_budget]
        simp only [Bool.false_eq_true, if_false]
        exact hP4.2
  constructor
  · unfold baseAlgorithm at hrun
    cases pop with
    | nil => exact absurd hrun (by simp)
    | cons first rest =>
      exact (runLoop_invariant E params0.sequential params0.tpa
        (fun s => s.sigma_over_time.length = s.best_fitness_over_time.length ∧
          s.best_fitness_over_time.length ≤ s.used_budget)
        (hstepA params0.sequential params0.tpa) fuel
        (initialState E params0 (first :: rest) first) st' ⟨rfl, Nat.zero_le _⟩ hrun).1
  · intro htpa
    unfold baseAlgorithm at hrun
    cases pop with
    | nil => exact absurd hrun (by simp)
    | cons first rest =>
      rw [htpa] at hrun
      exact (runLoop_invariant E params0.sequential false
        (fun s => s.best_fitness_over_time.length = s.used_budget ∧
          s.sigma_over_time.length = s.used_budget)
        (hstepB params0.sequential) fuel
        (initialState E params0 (first :: rest) first) st' ⟨rfl, rfl⟩ hrun).1

/-- C5 (witness): the trace-length equations applied to the concrete run of
`constEnv` (no TPA), which ends with `used_budget = 4` and both traces of
length 4. -/
theorem C5_trace_lengths_witness :
    resC5w.sigma_over_time.length = resC5w.best_fitness_over_time.length ∧
    resC5w.best_fitness_over_time.length = resC5w.used_budget :=
  ⟨(C5_trace_lengths constEnv defaultParams pop0 5 resC5w rfl).1,
   (C5_trace_lengths constEnv defaultParams pop0 5 resC5w rfl).2 rfl⟩

/-- C8: across one iteration of the main loop `used_budget` never decreases
(restarts consume, never refund, budget — nothing in the loop resets it),
`used_budget_at_last_restart` never exceeds `used_budget`, and whenever
`used_budget_at_last_restart` changes it is set to the current value of
`used_budget` (line 468); hence the `used_budget` values observed across a
run are monotonically non-decreasing. -/
theorem C8_budget_monotone_restart (E : Env) (seq tpa : Bool) (st stN : LoopState) (b : Bool)
    (hord : st.used_budget_at_last_restart ≤ st.used_budget)
    (hg : genStep E seq tpa st = Except.ok (stN, b)) :
    st.used_budget ≤ stN.used_budget ∧
    stN.used_budget_at_last_restart ≤ stN.used_budget ∧
    (stN.used_budget_at_last_restart = st.used_budget_at_last_restart ∨
     stN.used_budget_at_last_restart = stN.used_budget) := by
  obtain ⟨st3, st4, htr, hst, hcase⟩ := genStep_ok_cases E seq tpa st stN b hg
  obtain ⟨i, hli, hst3⟩ := truncatePhase_ok _ _ htr
  obtain ⟨hne, hst4⟩ := selectTrackPhase_ok E _ _ hst
  have hub3 : st3.used_budget = (evalPhase E seq (trimTPA tpa st)).used_budget := by
    rw [hst3]
  have hulr3 : st3.used_budget_at_last_restart = st.used_budget_at_last_restart := by
    rw [hst3]
    show (evalPhase E seq (trimTPA tpa st)).used_budget_at_last_restart =
      st.used_budget_at_last_restart
    rw [evalPhase_ulr, trimTPA_ulr]
  have hmono : st.used_budget ≤ st3.used_budget := by
    rw [hub3]
    calc st.used_budget = (trimTPA tpa st).used_budget := (trimTPA_used_budget tpa st).symm
      _ ≤ (evalPhase E seq (trimTPA tpa st)).used_budget := evalPhase_ub_mono E seq _
  have hub4 : st4.used_budget = st3.used_budget := by rw [hst4]
  have hulr4 : st4.used_budget_at_last_restart = st.used_budget_at_last_restart := by
    rw [hst4]; exact hulr3
  rcases hcase with ⟨_, rfl, _⟩ | ⟨hb4, rfl, _⟩
  · refine ⟨by omega, by omega, Or.inl hulr4⟩
  · have hle4 : st4.used_budget ≤ E.budget := Nat.le_of_not_le hb4
    have hcub : st4.used_budget ≤ (contPhase E seq tpa st4).used_budget := by
      rw [contPhase_used_budget]
      split_ifs with h1 h2
      · omega
      · omega
      · exact Nat.le_refl _
    rcases contPhase_ulr E seq tpa st4 with h | h
    · refine ⟨by omega, ?_, Or.inl (by rw [h, hulr4])⟩
      rw [h, hulr4]
      omega
    · exact ⟨by omega, Nat.le_of_eq h, Or.inr h⟩

/-- C8 (witness): the per-iteration budget-bookkeeping facts applied to a
concrete generation step of `constEnv` from the freshly initialised state
`stC8`. -/
theorem C8_budget_monotone_restart_witness :
    stC8.used_budget ≤ resC8.1.used_budget ∧
    resC8.1.used_budget_at_last_restart ≤ resC8.1.used_budget ∧
    (resC8.1.used_budget_at_last_restart = stC8.used_budget_at_last_restart ∨
     resC8.1.used_budget_at_last_restart = resC8.1.used_budget) :=
  C8_budget_monotone_restart constEnv false false stC8 resC8.1 resC8.2 (by decide) rfl

/-- The concrete elitist selector satisfies the elitist-head contract: it
returns a nonempty population whose best fitness does not exceed the best
fitness of the incoming parent population. -/
theorem elitistSelect_spec (p : Params) (q np : List Individual) (t : Nat) (_hq : q ≠ []) :
    (elitistSelect p q np t).2 ≠ [] ∧ headFit (elitistSelect p q np t).2 ≤ headFit q := by
  unfold elitistSelect
  constructor
  · split_ifs <;> simp
  · split_ifs with h
    · show (headInd np).fitness ≤ headFit q
      exact h
    · show (headInd q).fitness ≤ headFit q
      exact Int.le_refl _

/-- C2 (amended): the best-fitness trace is monotonically non-increasing for
every selector that never worsens the head fitness of the population it
returns relative to its parent input (in particular every elitist selector);
with a non-elitist selector the trace can increase (see the
counterexample). -/
theorem C2_elitist_trace_monotone (E : Env) (params0 : Params) (pop : List Individual)
    (fuel : Nat) (st' : LoopState)
    (hsel : ∀ p q np t, q ≠ [] →
      (E.select p q np t).2 ≠ [] ∧ headFit (E.select p q np t).2 ≤ headFit q)
    (hrun : baseAlgorithm E params0 pop fuel = Except.ok st') :
    nonIncreasing st'.best_fitness_over_time = true := by
  have hstep : ∀ st stN b, st.used_budget < E.budget →
      genStep E params0.sequential params0.tpa st = Except.ok (stN, b) →
      (st.population ≠ [] ∧ nonIncreasing st.best_fitness_over_time = true ∧
        ∀ v, st.best_fitness_over_time.getLast? = some v → headFit st.population ≤ v) →
      (stN.population ≠ [] ∧ nonIncreasing stN.best_fitness_over_time = true ∧
        ∀ v, stN.best_fitness_over_time.getLast? = some v → headFit stN.population ≤ v) := by
    intro st stN b hlt hg hP
    obtain ⟨st3, st4, htr, hst, hcase⟩ :=
      genStep_ok_cases E params0.sequential params0.tpa st stN b hg
    obtain ⟨i, hli, hst3⟩ := truncatePhase_ok _ _ htr
    obtain ⟨hne, hst4⟩ := selectTrackPhase_ok E _ _ hst
    have hpop3 : st3.population = st.population := by
      rw [hst3]
      show (evalPhase E params0.sequential (trimTPA params0.tpa st)).population = st.population
      rw [evalPhase_population, trimTPA_population]
    have hbest3 : st3.best_fitness_over_time = st.best_fitness_over_time := by
      rw [hst3]
      show (evalPhase E params0.sequential (trimTPA params0.tpa st)).best_fitness_over_time =
        st.best_fitness_over_time
      rw [evalPhase_best_trace, trimTPA_best_trace]
    have hsel' := hsel st3.params st3.population st3.new_population st3.used_budget
      (by rw [hpop3]; exact hP.1)
    have hselout : (selOut E st3).2 = (E.select st3.params st3.population st3.new_population
        st3.used_budget).2 := rfl
    have hpop4 : st4.population = (selOut E st3).2 := by rw [hst4]
    have hbest4 : st4.best_fitness_over_time = st.best_fitness_over_time ++
        List.replicate (st3.used_budget - st.best_fitness_over_time.length)
          (headFit (selOut E st3).2) := by
      rw [hst4]
      show st3.best_fitness_over_time ++
        List.replicate (st3.used_budget - st3.best_fitness_over_time.length)
          (headFit (selOut E st3).2) = _
      rw [hbest3]
    have hhead : headFit (selOut E st3).2 ≤ headFit st.population := by
      rw [hselout]
      exact Int.le_trans hsel'.2 (Int.le_of_eq (by rw [hpop3]))
    have hne4 : st4.population ≠ [] := by
      rw [hpop4, hselout]
      exact hsel'.1
    have hni4 : nonIncreasing st4.best_fitness_over_time = true := by
      rw [hbest4]
      refine nonIncr_append_replicate _ _ _ hP.2.1 ?_
      intro v hv
      exact Int.le_trans hhead (hP.2.2 v hv)
    have hlast4 : ∀ v, st4.best_fitness_over_time.getLast? = some v →
        headFit st4.population ≤ v := by
      intro v hv
      rw [hbest4] at hv
      rw [hpop4]
      cases hk : st3.used_budget - st.best_fitness_over_time.length with
      | zero =>
        rw [hk] at hv
        simp only [List.replicate_zero, List.append_nil] at hv
        exact Int.le_trans hhead (hP.2.2 v hv)
      | succ m =>
        rw [hk] at hv
        rw [List.replicate_succ, List.getLast?_append_cons, ← List.replicate_succ,
          getLast?_replicate_succ] at hv
        have : headFit (selOut E st3).2 = v := Option.some.inj hv
        rw [this]
    rcases hcase with ⟨_, rfl, _⟩ | ⟨hb4, rfl, _⟩
    · exact ⟨hne4, hni4, hlast4⟩
    · refine ⟨?_, ?_, ?_⟩
      · rw [contPhase_population]; exact hne4
      · rw [contPhase_best_trace]; exact hni4
      · intro v hv
        rw [contPhase_best_trace] at hv
        rw [contPhase_population]
        exact hlast4 v hv
  unfold baseAlgorithm at hrun
  cases pop with
  | nil => exact absurd hrun (by simp)
  | cons first rest =>
    have hinit : (initialState E params0 (first :: rest) first).population ≠ [] ∧
        nonIncreasing (initialState E params0 (first :: rest) first).best_fitness_over_time =
          true ∧
        ∀ v, (initialState E params0 (first :: rest)
            first).best_fitness_over_time.getLast? = some v →
          headFit (initialState E params0 (first :: rest) first).population ≤ v := by
      refine ⟨by simp [initialState], rfl, ?_⟩
      intro v hv
      exact absurd hv (by simp [initialState])
    exact (runLoop_invariant E params0.sequential params0.tpa
      (fun s => s.population ≠ [] ∧ nonIncreasing s.best_fitness_over_time = true ∧
        ∀ v, s.best_fitness_over_time.getLast? = some v → headFit s.population ≤ v)
      hstep fuel (initialState E params0 (first :: rest) first) st' hinit hrun).2.1

/-- C2 (witness): the monotone-trace theorem applied to the elitist run of
`envC2w`, whose trace evaluates to `[0, 0]`. -/
theorem C2_elitist_trace_monotone_witness :
    nonIncreasing resC2w.best_fitness_over_time = true :=
  C2_elitist_trace_monotone envC2w defaultParams pop0 5 resC2w
    (fun p q np t hq => elitistSelect_spec p q np t hq) rfl

theorem except_map_ok {α β : Type} (f : α → β) (a : α) :
    Except.map f (Except.ok a : Except String α) = Except.ok (f a) := rfl

theorem truncatePhase_some (st : LoopState) (i : Nat) (h : st.last_i = some i) :
    truncatePhase st =
      Except.ok { st with new_population := st.new_population.take (i + 1) } := by
  unfold truncatePhase
  rw [h]

theorem selectTrackPhase_ne (E : Env) (st : LoopState) (h : ¬ (selOut E st).2 = []) :
    selectTrackPhase E st = Except.ok { st with
      fitnesses := sortInts (st.new_population.map (fun ind => ind.fitness)),
      params := (selOut E st).1,
      population := (selOut E st).2,
      generation_size :=
        st.generation_size ++ [st.used_budget - st.best_fitness_over_time.length],
      sigma_over_time := st.sigma_over_time ++
        List.replicate (st.used_budget - st.sigma_over_time.length) (selOut E st).1.sigma_mean,
      best_fitness_over_time := st.best_fitness_over_time ++
        List.replicate (st.used_budget - st.best_fitness_over_time.length)
          (headFit (selOut E st).2),
      best_individual :=
        if headFit (selOut E st).2 < st.best_individual.fitness then
          copyIndividual (headInd (selOut E st).2)
        else st.best_individual } := by
  unfold selectTrackPhase
  rw [if_neg h]

/-- After a successful TRACK on a state whose selection result has a size
different from `mu` and whose budget is not yet exhausted, the generation
continues: the diagnostic counter grows by one and the selected population
is carried into the next generation unchanged. -/
theorem selectTrack_bind_warn (E : Env) (seq tpa : Bool) (st3 : LoopState)
    (hne : ¬ (selOut E st3).2 = [])
    (hcond : ¬ E.budget ≤ st3.used_budget)
    (hmu : (selOut E st3).2.length ≠ (selOut E st3).1.mu) :
    (Except.bind (selectTrackPhase E st3) (fun st4 =>
      if E.budget ≤ st4.used_budget then Except.ok (st4, true)
      else Except.ok (contPhase E seq tpa st4, false))).map
        (fun pr => (pr.1.warnings, pr.1.population)) =
    Except.ok (st3.warnings + 1, (selOut E st3).2) := by
  rw [selectTrackPhase_ne E st3 hne, except_bind_ok]
  dsimp only
  rw [if_neg hcond, except_map_ok, contPhase_warnings, contPhase_population]
  dsimp only
  rw [if_neg hmu]

/-- C9 (amended): if the selector returns a nonempty population whose size
differs from `mu` and the budget is not yet exhausted by the generation's
evaluation, the loop records the "Bad population size" diagnostic (skipping
recombination) and continues without an exception, carrying the actually
returned population into the subsequent steps; a selector returning an
*empty* population instead makes the TRACK step raise `IndexError` (see the
counterexample). -/
theorem C9_bad_size_continues (E : Env) (st : LoopState) (ps : Params)
    (q : List Individual) (ind : Individual) (rest : List Individual)
    (hpar : E.parallel = false)
    (hnp : st.new_population ≠ [])
    (hsel : ∀ pr np t, E.select pr st.population np t = (ps, q))
    (hq : q = ind :: rest)
    (hlen : q.length ≠ ps.mu)
    (hb : st.used_budget + st.new_population.length < E.budget) :
    (genStep E false false st).map (fun pr => (pr.1.warnings, pr.1.population)) =
      Except.ok (st.warnings + 1, q) := by
  have hnps := npEval_nonseq E st.params st.best_individual.fitness st.new_population 0
    st.used_budget st.improvement_found
  have hlen1 : (npRes E false st).1.length = st.new_population.length := hnps.1
  have hlen0 : (npRes E false st).1.length ≠ 0 := by
    rw [hlen1]
    intro hc
    exact hnp (List.length_eq_zero.mp hc)
  have hev : evalPhase E false (trimTPA false st) = npApply E false st := by
    rw [trimTPA_false]
    unfold evalPhase
    rw [if_neg (by simp [hpar])]
  have hlast : (npApply E false st).last_i = some ((npRes E false st).1.length - 1) := by
    show (if (npRes E false st).1.length = 0 then st.last_i
      else some ((npRes E false st).1.length - 1)) = some ((npRes E false st).1.length - 1)
    rw [if_neg hlen0]
  have htr := truncatePhase_some (npApply E false st) ((npRes E false st).1.length - 1) hlast
  have hnp3 : (npApply E false st).new_population.take
      ((npRes E false st).1.length - 1 + 1) = (npRes E false st).1 := by
    have h2 : (npApply E false st).new_population =
        (npRes E false st).1 ++ st.new_population.drop (npRes E false st).1.length := rfl
    rw [h2]
    rw [show st.new_population.drop (npRes E false st).1.length = [] from by
      rw [hlen1]; exact List.drop_length _]
    rw [List.append_nil]
    rw [show (npRes E false st).1.length - 1 + 1 = (npRes E false st).1.length from by omega]
    exact List.take_length _
  rw [hnp3] at htr
  have hso : selOut E
      { npApply E false st with new_population := (npRes E false st).1 } = (ps, q) :=
    hsel _ _ _
  have hub3 : ({ npApply E false st with
      new_population := (npRes E false st).1 } : LoopState).used_budget =
      st.used_budget + st.new_population.length := hnps.2.1
  have hne2 : ¬ (selOut E
      { npApply E false st with new_population := (npRes E false st).1 }).2 = [] := by
    rw [hso, hq]
    simp
  have hcond : ¬ E.budget ≤ ({ npApply E false st with
      new_population := (npRes E false st).1 } : LoopState).used_budget := by
    rw [hub3]
    omega
  have hmu : (selOut E
      { npApply E false st with new_population := (npRes E false st).1 }).2.length ≠
      (selOut E { npApply E false st with new_population := (npRes E false st).1 }).1.mu := by
    rw [hso]
    exact hlen
  have hmain := selectTrack_bind_warn E false false
    { npApply E false st with new_population := (npRes E false st).1 } hne2 hcond hmu
  unfold genStep
  rw [hev, htr, except_bind_ok, hmain, hso]
  rfl

/-- C9 (witness): the bad-size continuation applied to the concrete run of
`envC9`, whose selector always returns two individuals against `mu = 1`:
the step succeeds, the diagnostic counter becomes 1 and the returned
two-individual population is adopted. -/
theorem C9_bad_size_continues_witness :
    (genStep envC9 false false stC9).map (fun pr => (pr.1.warnings, pr.1.population)) =
      Except.ok (stC9.warnings + 1, qC9) :=
  C9_bad_size_continues envC9 stC9 defaultParams qC9
    { dna := [1], fitness := 1 } [{ dna := [2], fitness := 2 }]
    rfl (by simp [stC9, defaultLoopState]) (fun _ _ _ => rfl) rfl (by decide) (by decide)

end ModEA
